import Mathlib

/-!
# Task list controller (`src/components/TasklList.js`)

A shallow embedding of the `TaskList` React component: its state, the
handlers that change it and the calls they make to the API client, followed
by theorems about filtering, sorting, validation, selection and deletion.

Conventions of the embedding

* The component state (the six `useState` cells) is the record `State`; a
  handler is a function from the state in which it was created to the state
  after all of its `set...` calls have been applied.
* The API client (`../services/api`) is external.  It is a parameter,
  `ApiClient`: each of its functions answers from the list of calls made so
  far, so every deterministic backend is an instance.  The calls made, the
  `alert` messages and the `console.error` lines are recorded in `World`.
* An `async` handler also yields the outcome of its promise: `Except.ok ()`
  when it is fulfilled, `Except.error e` when it is rejected with `e`.
* Handlers run to completion one after another (no interleaving of two
  pending handlers).
* `dayjs` (external library) is a parameter of `fetchTasks`: a function from
  a property value (`none` is `null`) to epoch milliseconds, `none` standing
  for an Invalid Date.  `dayjsLocal` is a concrete instance for the strings a
  `datetime-local` input produces.
* `Array.prototype.sort` is a stable sort; it is embedded as insertion sort.
  ECMAScript fixes the result only for a comparator that is a consistent
  order; the comparator of `fetchTasks` is one exactly on tasks whose dates all
  parse.
* JavaScript strings are Lean strings; `<` on two strings is `stringLt`, the
  lexicographic order of their UTF-16 code units.
-/

namespace TaskList

/-! ## Data -/

/-- Task as returned by `getTasks`: `endTime` may be `null`. -/
structure Task where
  _id : String
  title : String
  priority : Int
  status : String
  startTime : String
  endTime : Option String
  deriving DecidableEq

/-- Value of a form field that holds either the string of an input element or
the number copied from a task by `handleEditTask`. -/
inductive FieldValue where
  | str (s : String)
  | num (n : Int)
  deriving DecidableEq

/-- The `newTask` form. -/
structure Form where
  title : String
  priority : FieldValue
  status : String
  startTime : String
  endTime : Option String
  deriving DecidableEq

/-- The `filters` record. -/
structure Filters where
  priority : String
  status : String
  sort : String
  deriving DecidableEq

/-- The six `useState` cells of the component. -/
structure State where
  tasks : List Task
  selectedTask : Option Task
  showModal : Bool
  newTask : Form
  filters : Filters
  selectedTasks : List String
  deriving DecidableEq

/-- Initial values of the `useState` cells. -/
def initialState : State :=
  { tasks := []
    selectedTask := none
    showModal := false
    newTask := { title := "", priority := .str "", status := "pending", startTime := "",
                 endTime := some "" }
    filters := { priority := "", status := "", sort := "" }
    selectedTasks := [] }

/-! ## The API client and the observable effects -/

/-- One call to the API client. -/
inductive Call where
  | getTasks
  | createTask (fields : Form)
  | updateTask (id : String) (fields : Form)
  | deleteTask (id : String)
  deriving DecidableEq

/-- The API client, module `../services/api`, which lies outside the component
and is a parameter of every handler: each function answers from the calls made
before it, with the message of the error when it fails.  `getTasks` answers
`response.data?.tasks` (`none` when it is missing). -/
structure ApiClient where
  getTasks : List Call → Except String (Option (List Task))
  createTask : List Call → Form → Except String Unit
  updateTask : List Call → String → Form → Except String Unit
  deleteTask : List Call → String → Except String Unit

/-- What a handler leaves outside the component state. -/
structure World where
  calls : List Call
  alerts : List String
  errors : List String
  deriving DecidableEq

/-- Nothing has happened yet. -/
def World.empty : World := { calls := [], alerts := [], errors := [] }

/-- State and world after a handler, with the outcome of its promise. -/
structure Result where
  state : State
  world : World
  outcome : Except String Unit

/-! ## JavaScript built-ins used by the component -/

/-- Truthiness of a string: the empty string is falsy. -/
def truthy (s : String) : Bool := s != ""

/-- Truthiness of a form field: `""` and `0` are falsy. -/
def FieldValue.truthy : FieldValue → Bool
  | .str s => s != ""
  | .num n => n != 0

/-- Truthiness of a nullable string: `null` and `""` are falsy. -/
def truthyOpt : Option String → Bool
  | none => false
  | some s => s != ""

/-- `String.prototype.toLowerCase` on the ASCII letters; other characters are
kept (no character outside ASCII lower-cases to a letter of "pending" or
"finished"). -/
def toLowerCase (s : String) : String := String.mk (s.toList.map Char.toLower)

/-- White space and line terminators skipped by `parseInt`. -/
def isWhiteSpace (c : Char) : Bool :=
  [9, 10, 11, 12, 13, 32, 160, 5760, 8232, 8233, 8239, 8287, 12288, 65279].contains c.toNat
    || (8192 ≤ c.toNat && c.toNat ≤ 8202)

/-- Value of a digit in the given radix (10 or 16). -/
def digitValue (radix : Nat) (c : Char) : Option Nat :=
  if c.isDigit then some (c.toNat - 48)
  else if radix = 16 ∧ 97 ≤ c.toNat ∧ c.toNat ≤ 102 then some (c.toNat - 87)
  else if radix = 16 ∧ 65 ≤ c.toNat ∧ c.toNat ≤ 70 then some (c.toNat - 55)
  else none

/-- Longest prefix of digits, read in the radix; `none` when it is empty. -/
def leadingDigits (radix : Nat) : List Char → Option Nat → Option Nat
  | [], acc => acc
  | c :: cs, acc =>
    match digitValue radix c with
    | some d => leadingDigits radix cs (some (acc.getD 0 * radix + d))
    | none => acc

/-- `parseInt(string)` without a radix argument; `none` is `NaN`. -/
def parseInt (s : String) : Option Int :=
  let cs := s.toList.dropWhile isWhiteSpace
  let (negative, cs) :=
    match cs with
    | '-' :: rest => (true, rest)
    | '+' :: rest => (false, rest)
    | _ => (false, cs)
  let magnitude :=
    match cs with
    | '0' :: 'x' :: rest => leadingDigits 16 rest none
    | '0' :: 'X' :: rest => leadingDigits 16 rest none
    | _ => leadingDigits 10 cs none
  magnitude.map fun n => if negative then -(n : Int) else (n : Int)

/-- UTF-16 code units of a character. -/
def codeUnits (c : Char) : List Nat :=
  if c.toNat < 65536 then [c.toNat]
  else [55296 + (c.toNat - 65536) / 1024, 56320 + (c.toNat - 65536) % 1024]

/-- Lexicographic order on lists of code units. -/
def unitsLt : List Nat → List Nat → Bool
  | _, [] => false
  | [], _ :: _ => true
  | a :: as, b :: bs => if a < b then true else if b < a then false else unitsLt as bs

/-- The operator `<` on two strings. -/
def stringLt (a b : String) : Bool :=
  unitsLt (a.toList.flatMap codeUnits) (b.toList.flatMap codeUnits)

/-- `String.prototype.split` with a one-character separator. -/
def splitChars (sep : Char) : List Char → List Char → List String
  | [], cur => [String.mk cur.reverse]
  | c :: cs, cur =>
    if c = sep then String.mk cur.reverse :: splitChars sep cs []
    else splitChars sep cs (c :: cur)

/-- `s.split(sep)` for a separator of one character. -/
def split (s : String) (sep : Char) : List String := splitChars sep s.toList []

/-- `Array.prototype.sort(comparefn)`: a stable sort (ECMAScript 2019), here by
insertion.  `comparefn a b ≤ 0` keeps `a` before `b`. -/
def sort {α : Type} (comparefn : α → α → Int) (l : List α) : List α :=
  List.insertionSort (fun a b => comparefn a b ≤ 0) l

/-- `x.isBefore(y)` on parsed dates: false when either is an Invalid Date. -/
def isBefore : Option Int → Option Int → Bool
  | some a, some b => a < b
  | _, _ => false

/-- `x.isAfter(y)` on parsed dates: false when either is an Invalid Date. -/
def isAfter : Option Int → Option Int → Bool
  | some a, some b => b < a
  | _, _ => false

/-! ## Dates -/

/-- Reads a non-empty list of decimal digits. -/
def readDigits (cs : List Char) : Option Nat :=
  if cs.isEmpty || !cs.all Char.isDigit then none
  else some (cs.foldl (fun n c => n * 10 + (c.toNat - 48)) 0)

/-- Days from 1970-01-01 to the first day of a month of the proleptic Gregorian
calendar, plus `day - 1`. -/
def daysFromCivil (year month day : Int) : Int :=
  let y := if month ≤ 2 then year - 1 else year
  let era := y / 400
  let yoe := y - era * 400
  let mp := if month > 2 then month - 3 else month + 9
  let doy := (153 * mp + 2) / 5 + day - 1
  let doe := yoe * 365 + yoe / 4 - yoe / 100 + doy
  era * 146097 + doe - 719468

/-- Number of days of a month. -/
def daysInMonth (year month : Nat) : Nat :=
  if month = 2 then (if year % 4 = 0 ∧ (year % 100 ≠ 0 ∨ year % 400 = 0) then 29 else 28)
  else if month = 4 ∨ month = 6 ∨ month = 9 ∨ month = 11 then 30
  else 31

/-- The timestamp, in minutes since 1970-01-01T00:00, of the value of a
datetime-local input: a local date and time YYYY-MM-DDTHH:mm with a year of
four or more digits (HTML, valid local date and time string); `none` for any
other string. -/
def localDateTime (s : String) : Option Int :=
  match split s 'T' with
  | [date, time] =>
    match split date '-', split time ':' with
    | [y, m, d], [h, mi] =>
      if 4 ≤ y.length ∧ m.length = 2 ∧ d.length = 2 ∧ h.length = 2 ∧ mi.length = 2 then
        match readDigits y.toList, readDigits m.toList, readDigits d.toList,
            readDigits h.toList, readDigits mi.toList with
        | some y, some m, some d, some h, some mi =>
          if 1 ≤ y ∧ 1 ≤ m ∧ m ≤ 12 ∧ 1 ≤ d ∧ d ≤ daysInMonth y m ∧ h ≤ 23 ∧ mi ≤ 59 then
            some ((daysFromCivil y m d * 24 + h) * 60 + mi)
          else none
        | _, _, _, _, _ => none
      else none
    | _, _ => none
  | _ => none

/-- An instance of `dayjs(value)`, in epoch milliseconds: `null` is an Invalid
Date; a string YYYY-MM-DDTHH:mm with a four-digit year is read by
`new Date(year, month - 1, day, hour, minute)` in a zone whose local time is
UTC (years 0 to 99 count from 1900, fields out of range carry over).  Strings
of any other shape are not modelled and answer `none`. -/
def dayjsLocal : Option String → Option Int
  | none => none
  | some s =>
    match s.toList with
    | [y1, y2, y3, y4, '-', m1, m2, '-', d1, d2, 'T', h1, h2, ':', n1, n2] =>
      match readDigits [y1, y2, y3, y4], readDigits [m1, m2], readDigits [d1, d2],
          readDigits [h1, h2], readDigits [n1, n2] with
      | some y, some m, some d, some h, some mi =>
        let year : Int := if y ≤ 99 then 1900 + y else y
        let months : Int := year * 12 + m - 1
        let days := daysFromCivil (months / 12) (months % 12 + 1) d
        some (((days * 24 + h) * 60 + mi) * 60000)
      | _, _, _, _, _ => none
    | _ => none

/-- The property `task[key]` as handed to `dayjs`; `none` is `null`.  The sort
select offers the keys startTime and endTime only; the other string properties
are answered too, and any further key, which the component never passes, is
answered like `null`. -/
def Task.prop (task : Task) (key : String) : Option String :=
  if key = "startTime" then some task.startTime
  else if key = "endTime" then task.endTime
  else if key = "title" then some task.title
  else if key = "status" then some task.status
  else if key = "_id" then some task._id
  else none

/-! ## fetchTasks -/

/-- The comparator of `fetchTasks` (lines 33-37). -/
def compareTasks (dayjs : Option String → Option Int) (key : String) (order : Option String)
    (a b : Task) : Int :=
  if isBefore (dayjs (a.prop key)) (dayjs (b.prop key)) then
    (if order = some "asc" then -1 else 1)
  else if isAfter (dayjs (a.prop key)) (dayjs (b.prop key)) then
    (if order = some "asc" then 1 else -1)
  else 0

/-- The filters of `fetchTasks` (lines 22-28). -/
def applyFilters (filters : Filters) (tasks : List Task) : List Task :=
  let filteredTasks :=
    if truthy filters.priority then
      tasks.filter fun task => decide (some task.priority = parseInt filters.priority)
    else tasks
  if truthy filters.status then
    filteredTasks.filter fun task => decide (toLowerCase task.status = filters.status)
  else filteredTasks

/-- The sorting of `fetchTasks` (lines 30-38). -/
def applySorting (dayjs : Option String → Option Int) (filters : Filters)
    (filteredTasks : List Task) : List Task :=
  if truthy filters.sort then
    let parts := split filters.sort '-'
    let key := parts.headD ""
    let order := parts.tail.head?
    sort (compareTasks dayjs key order) filteredTasks
  else filteredTasks

/-- The list `fetchTasks` hands to `setTasks` (lines 20-40): the tasks of the
response, or none when the response has no tasks, filtered and then sorted. -/
def deriveTasks (dayjs : Option String → Option Int) (filters : Filters)
    (response : Option (List Task)) : List Task :=
  applySorting dayjs filters (applyFilters filters (response.getD []))

/-- Handler `fetchTasks` (lines 17-45). -/
def fetchTasks (dayjs : Option String → Option Int) (api : ApiClient) (s : State) (w : World) :
    Result :=
  match api.getTasks w.calls with
  | .ok response =>
    { state := { s with tasks := deriveTasks dayjs s.filters response }
      world := { w with calls := w.calls ++ [Call.getTasks] }
      outcome := .ok () }
  | .error e =>
    { state := { s with tasks := [] }
      world := { w with calls := w.calls ++ [Call.getTasks]
                        errors := w.errors ++ ["Error fetching tasks: " ++ e] }
      outcome := .ok () }

/-! ## The form -/

/-- Handler `handleInputChange` (line 50): sets the named field of the form to the
value of the input element. -/
def handleInputChange (name value : String) (s : State) : State :=
  let f := s.newTask
  let f :=
    if name = "title" then { f with title := value }
    else if name = "priority" then { f with priority := .str value }
    else if name = "status" then { f with status := value }
    else if name = "startTime" then { f with startTime := value }
    else if name = "endTime" then { f with endTime := some value }
    else f
  { s with newTask := f }

/-- Handler `handleSaveTask` (lines 52-70). -/
def handleSaveTask (dayjs : Option String → Option Int) (api : ApiClient) (s : State)
    (w : World) : Result :=
  if !truthy s.newTask.title || !s.newTask.priority.truthy || !truthy s.newTask.startTime then
    { state := s
      world := { w with alerts := w.alerts ++ ["Please fill in all required fields."] }
      outcome := .ok () }
  else if truthyOpt s.newTask.endTime && truthy s.newTask.startTime
      && stringLt (s.newTask.endTime.getD "") s.newTask.startTime then
    { state := s
      world := { w with alerts := w.alerts ++ ["End time must be after start time."] }
      outcome := .ok () }
  else
    let call :=
      match s.selectedTask with
      | some task => Call.updateTask task._id s.newTask
      | none => Call.createTask s.newTask
    let response :=
      match s.selectedTask with
      | some task => api.updateTask w.calls task._id s.newTask
      | none => api.createTask w.calls s.newTask
    match response with
    | .ok _ => fetchTasks dayjs api { s with showModal := false } { w with calls := w.calls ++ [call] }
    | .error e =>
      { state := s
        world := { w with calls := w.calls ++ [call]
                          errors := w.errors ++ ["Error saving task: " ++ e] }
        outcome := .ok () }

/-- Handler `handleEditTask` (lines 72-82). -/
def handleEditTask (task : Task) (s : State) : State :=
  { s with
    selectedTask := some task
    newTask := { title := task.title, priority := .num task.priority, status := task.status,
                 startTime := task.startTime, endTime := task.endTime }
    showModal := true }

/-- The Add Task button (line 111): `setShowModal(true)`. -/
def openModal (s : State) : State := { s with showModal := true }

/-- The Cancel button (line 218): `setShowModal(false)`. -/
def closeModal (s : State) : State := { s with showModal := false }

/-! ## Deleting -/

/-- Handler `handleDeleteTask` (lines 84-87). -/
def handleDeleteTask (dayjs : Option String → Option Int) (api : ApiClient) (id : String)
    (s : State) (w : World) : Result :=
  match api.deleteTask w.calls id with
  | .ok _ => fetchTasks dayjs api s { w with calls := w.calls ++ [Call.deleteTask id] }
  | .error e =>
    { state := s, world := { w with calls := w.calls ++ [Call.deleteTask id] }, outcome := .error e }

/-- The loop of `handleDeleteSelected` (lines 90-92): one awaited `deleteTask` per
id; a rejected call ends the loop.  Yields the calls made so far and whether the
loop ended normally. -/
def deleteLoop (api : ApiClient) : List String → List Call → List Call × Except String Unit
  | [], calls => (calls, .ok ())
  | taskId :: rest, calls =>
    match api.deleteTask calls taskId with
    | .ok _ => deleteLoop api rest (calls ++ [Call.deleteTask taskId])
    | .error e => (calls ++ [Call.deleteTask taskId], .error e)

/-- Handler `handleDeleteSelected` (lines 89-95). -/
def handleDeleteSelected (dayjs : Option String → Option Int) (api : ApiClient) (s : State)
    (w : World) : Result :=
  match deleteLoop api s.selectedTasks w.calls with
  | (calls, .ok _) => fetchTasks dayjs api { s with selectedTasks := [] } { w with calls := calls }
  | (calls, .error e) => { state := s, world := { w with calls := calls }, outcome := .error e }

/-! ## Filters and selection -/

/-- Handler `handleFilterChange` (line 97). -/
def handleFilterChange (key value : String) (s : State) : State :=
  let f := s.filters
  let f :=
    if key = "priority" then { f with priority := value }
    else if key = "status" then { f with status := value }
    else if key = "sort" then { f with sort := value }
    else f
  { s with filters := f }

/-- Handler `handleSelectTask` (lines 99-105). -/
def handleSelectTask (id : String) (s : State) : State :=
  if s.selectedTasks.contains id then
    { s with selectedTasks := s.selectedTasks.filter fun taskId => taskId != id }
  else
    { s with selectedTasks := s.selectedTasks ++ [id] }

/-- Checked state of the row of a task (line 171). -/
def checked (s : State) (task : Task) : Bool := s.selectedTasks.contains task._id

/-! ## The component as a transition system -/

/-- Events the rendered component reacts to. -/
inductive Action where
  | filterChange (key value : String)
  | inputChange (name value : String)
  | saveTask
  | editTask (task : Task)
  | deleteSelected
  | selectTask (id : String)
  | addTask
  | cancel
  deriving DecidableEq

/-- Values offered by the three filter selects (lines 125-144). -/
def filterOptions (key : String) : List String :=
  if key = "priority" then ["", "1", "2", "3", "4", "5"]
  else if key = "status" then ["", "pending", "finished"]
  else if key = "sort" then ["", "startTime-asc", "startTime-desc", "endTime-asc", "endTime-desc"]
  else []

/-- Whether the rendered component offers the event in the state: the modal
controls exist only while the modal is shown, rows exist only for displayed
tasks, and Delete Selected is disabled on an empty selection. -/
def enabled (a : Action) (s : State) : Bool :=
  match a with
  | .filterChange key value => (filterOptions key).contains value
  | .inputChange name _ =>
    s.showModal && ["title", "startTime", "endTime", "priority", "status"].contains name
  | .saveTask => s.showModal
  | .editTask task => s.tasks.contains task
  | .deleteSelected => !s.selectedTasks.isEmpty
  | .selectTask id => s.tasks.any fun task => task._id == id
  | .addTask => true
  | .cancel => s.showModal

/-- Effect of one event; a change of `filters` re-runs the effect of line 13,
`fetchTasks`, with the new filters. -/
def step (dayjs : Option String → Option Int) (api : ApiClient) (a : Action) (s : State)
    (w : World) : State × World :=
  match a with
  | .filterChange key value =>
    let r := fetchTasks dayjs api (handleFilterChange key value s) w
    (r.state, r.world)
  | .inputChange name value => (handleInputChange name value s, w)
  | .saveTask => let r := handleSaveTask dayjs api s w; (r.state, r.world)
  | .editTask task => (handleEditTask task s, w)
  | .deleteSelected => let r := handleDeleteSelected dayjs api s w; (r.state, r.world)
  | .selectTask id => (handleSelectTask id s, w)
  | .addTask => (openModal s, w)
  | .cancel => (closeModal s, w)

/-- State and world once the component is mounted: the effect of line 13 has run
`fetchTasks` on the initial state. -/
def mounted (dayjs : Option String → Option Int) (api : ApiClient) : State × World :=
  let r := fetchTasks dayjs api initialState World.empty
  (r.state, r.world)

/-- States the component can be in: mounted, then any sequence of offered events. -/
inductive Reachable (dayjs : Option String → Option Int) (api : ApiClient) :
    State → World → Prop where
  | mount : Reachable dayjs api (mounted dayjs api).1 (mounted dayjs api).2
  | step {s : State} {w : World} (a : Action) :
      Reachable dayjs api s w → enabled a s = true →
      Reachable dayjs api (step dayjs api a s w).1 (step dayjs api a s w).2

/-- Runs a sequence of events from the mounted component; `none` when one of them
is not offered in the state it arrives in. -/
def runFrom (dayjs : Option String → Option Int) (api : ApiClient) :
    List Action → State × World → Option (State × World)
  | [], sw => some sw
  | a :: rest, (s, w) =>
    if enabled a s then runFrom dayjs api rest (step dayjs api a s w) else none

/-- Runs a sequence of events on the freshly mounted component. -/
def run (dayjs : Option String → Option Int) (api : ApiClient) (trace : List Action) :
    Option (State × World) :=
  runFrom dayjs api trace (mounted dayjs api)

/-! ## Notions of the specification -/

/-- The constraint of the specification: the priority, when given, is that of the
task, and the status, when given, is that of the task up to letter case. -/
def satisfies (priority : Option Int) (status : Option String) (task : Task) : Bool :=
  (match priority with
    | none => true
    | some p => decide (task.priority = p))
  && (match status with
    | none => true
    | some st => decide (toLowerCase task.status = toLowerCase st))

/-- Timestamp of a task for a sort key, when `dayjs` parses it; 0 otherwise. -/
def stamp (dayjs : Option String → Option Int) (key : String) (task : Task) : Int :=
  (dayjs (task.prop key)).getD 0

/-- The value a filter select holds for a choice: empty for no choice, else the
string of the chosen option. -/
def selectValue {α : Type} [ToString α] : Option α → String
  | none => ""
  | some a => toString a

/-! ## Sample data -/

/-- First task of the example of the specification. -/
def samplePending : Task :=
  { _id := "t1", title := "Write report", priority := 1, status := "Pending",
    startTime := "2024-01-01T10:00", endTime := none }

/-- Second task of the example of the specification. -/
def sampleFinished : Task :=
  { _id := "t2", title := "File taxes", priority := 1, status := "Finished",
    startTime := "2024-01-02T10:00", endTime := none }

/-- API client that always answers the given tasks and accepts every change. -/
def constantApi (tasks : List Task) : ApiClient :=
  { getTasks := fun _ => .ok (some tasks)
    createTask := fun _ _ => .ok ()
    updateTask := fun _ _ _ => .ok ()
    deleteTask := fun _ _ => .ok () }

/-- API client whose list call fails with the message. -/
def failingApi (message : String) : ApiClient :=
  { getTasks := fun _ => .error message
    createTask := fun _ _ => .ok ()
    updateTask := fun _ _ _ => .ok ()
    deleteTask := fun _ _ => .ok () }

/-- Task with the given id, for examples. -/
def taskWithId (id : String) : Task :=
  { _id := id, title := id, priority := 3, status := "pending",
    startTime := "2024-01-01T10:00", endTime := none }

/-- In-memory backend for examples: it holds the given tasks, a delete call removes
the task of that id, and a delete call for `refused` fails. -/
def deletingApi (tasks : List Task) (refused : Option String) : ApiClient :=
  { getTasks := fun calls =>
      .ok (some (tasks.filter fun task =>
        !calls.contains (Call.deleteTask task._id) || decide (refused = some task._id)))
    createTask := fun _ _ => .ok ()
    updateTask := fun _ _ _ => .ok ()
    deleteTask := fun _ id => if refused = some id then .error "delete failed" else .ok () }

/-- State that displays the tasks a, b and c with all three selected. -/
def threeSelected : State :=
  { initialState with
    tasks := [taskWithId "a", taskWithId "b", taskWithId "c"]
    selectedTasks := ["a", "b", "c"] }

/-- The mounted component after the rows t1 and t2 have been ticked. -/
def twoSelected : State × World :=
  step dayjsLocal (constantApi [samplePending, sampleFinished]) (.selectTask "t2")
    (step dayjsLocal (constantApi [samplePending, sampleFinished]) (.selectTask "t1")
      (mounted dayjsLocal (constantApi [samplePending, sampleFinished])).1
      (mounted dayjsLocal (constantApi [samplePending, sampleFinished])).2).1
    (step dayjsLocal (constantApi [samplePending, sampleFinished]) (.selectTask "t1")
      (mounted dayjsLocal (constantApi [samplePending, sampleFinished])).1
      (mounted dayjsLocal (constantApi [samplePending, sampleFinished])).2).2

/-- Task whose end is the later one. -/
def endsLate : Task :=
  { _id := "t3", title := "Review", priority := 2, status := "finished",
    startTime := "2024-01-01T09:00", endTime := some "2024-01-03T10:00" }

/-- Task that has no end time yet. -/
def neverEnds : Task :=
  { _id := "t4", title := "Plan", priority := 2, status := "pending",
    startTime := "2024-01-01T10:00", endTime := none }

/-- Task whose end is the earlier one. -/
def endsEarly : Task :=
  { _id := "t5", title := "Ship", priority := 2, status := "finished",
    startTime := "2024-01-01T11:00", endTime := some "2024-01-02T10:00" }

/-- Form typed into the modal: it starts in the last minute of the year 9999 and
ends one minute later, in the year 10000. -/
def acrossYearTenThousand : Form :=
  { title := "Archive", priority := .str "1", status := "pending",
    startTime := "9999-12-31T23:59", endTime := some "10000-01-01T00:00" }

/-- Task as a server that stores dates answers it, in ISO 8601 with a zone. -/
def serverTask : Task :=
  { _id := "t6", title := "Deploy", priority := 4, status := "pending",
    startTime := "2024-01-01T10:00:00.000Z", endTime := none }

/-! # Theorems -/

/-! ## Filtering (C1) -/

theorem parseInt_priority (p : Int) (h1 : 1 ≤ p) (h5 : p ≤ 5) :
    parseInt (toString p) = some p ∧ truthy (toString p) = true := by
  interval_cases p <;> exact ⟨by decide, by decide⟩

theorem filter_priority_eq (l : List Task) (p : Option Int) (hp : ∀ n ∈ p, 1 ≤ n ∧ n ≤ 5) :
    (if truthy (selectValue p) then
        l.filter fun task => decide (some task.priority = parseInt (selectValue p))
      else l) = l.filter (satisfies p none) := by
  cases p with
  | none =>
    have h : truthy (selectValue (none : Option Int)) = false := by decide
    have hs : satisfies none none = fun _ => true := by funext t; simp [satisfies]
    simp [h, hs]
  | some n =>
    obtain ⟨h1, h5⟩ := hp n rfl
    obtain ⟨hparse, htruthy⟩ := parseInt_priority n h1 h5
    simp only [selectValue, htruthy, hparse, if_true]
    apply List.filter_congr
    intro task _
    simp [satisfies]

theorem filter_status_eq (l : List Task) (st : Option String)
    (hst : ∀ x ∈ st, x = "pending" ∨ x = "finished") :
    (if truthy (selectValue st) then
        l.filter fun task => decide (toLowerCase task.status = selectValue st)
      else l) = l.filter (satisfies none st) := by
  cases st with
  | none =>
    have h : truthy (selectValue (none : Option String)) = false := by decide
    have hs : satisfies none none = fun _ => true := by funext t; simp [satisfies]
    simp [h, hs]
  | some x =>
    have hx : truthy (selectValue (some x)) = true ∧ toLowerCase x = selectValue (some x) := by
      rcases hst x rfl with rfl | rfl <;> exact ⟨by decide, by decide⟩
    simp only [hx.1, if_true]
    apply List.filter_congr
    intro task _
    simp [satisfies, hx.2]

/-- C1: without a sort key, with the priority filter absent or the decimal string
of an integer from 1 to 5 and the status filter absent, "pending" or "finished",
`fetchTasks` displays exactly the fetched tasks, in fetch order, whose priority is
the one asked for and whose status is the one asked for up to letter case. -/
theorem fetchTasks_filters (dayjs : Option String → Option Int) (api : ApiClient) (s : State)
    (w : World) (response : Option (List Task)) (p : Option Int) (st : Option String)
    (hfetch : api.getTasks w.calls = .ok response)
    (hp : ∀ n ∈ p, 1 ≤ n ∧ n ≤ 5)
    (hst : ∀ x ∈ st, x = "pending" ∨ x = "finished")
    (hfilters : s.filters = { priority := selectValue p, status := selectValue st, sort := "" }) :
    (fetchTasks dayjs api s w).state.tasks = (response.getD []).filter (satisfies p st) := by
  have hsort : truthy "" = false := by decide
  simp only [fetchTasks, hfetch, deriveTasks, applySorting, applyFilters, hfilters, hsort]
  rw [filter_priority_eq _ p hp, filter_status_eq _ st hst, List.filter_filter]
  apply List.filter_congr
  intro task _
  cases p <;> cases st <;> simp [satisfies, Bool.and_comm]

/-- C1, the example of the specification: the status filter "pending" on a pending
and a finished task of priority 1 keeps exactly the first. -/
theorem fetchTasks_filters_witness :
    (fetchTasks dayjsLocal (constantApi [samplePending, sampleFinished])
        { initialState with filters := { priority := "", status := "pending", sort := "" } }
        World.empty).state.tasks
      = [samplePending, sampleFinished].filter (satisfies none (some "pending"))
    ∧ [samplePending, sampleFinished].filter (satisfies none (some "pending")) = [samplePending] :=
  ⟨fetchTasks_filters dayjsLocal (constantApi [samplePending, sampleFinished])
      { initialState with filters := { priority := "", status := "pending", sort := "" } }
      World.empty (some [samplePending, sampleFinished]) none (some "pending") rfl
      (by simp) (by simp) rfl,
    by decide⟩

/-! ## Validation of the form (C4) -/

/-- C4: when the title, the priority or the start time of the form is empty,
`handleSaveTask` shows the message "Please fill in all required fields.", calls
the API client not at all and leaves the whole state as it was. -/
theorem handleSaveTask_rejects_empty (dayjs : Option String → Option Int) (api : ApiClient)
    (s : State) (w : World)
    (hempty : s.newTask.title = "" ∨ s.newTask.priority = .str "" ∨ s.newTask.startTime = "") :
    (handleSaveTask dayjs api s w).state = s
      ∧ (handleSaveTask dayjs api s w).world.calls = w.calls
      ∧ (handleSaveTask dayjs api s w).world.alerts
          = w.alerts ++ ["Please fill in all required fields."]
      ∧ (handleSaveTask dayjs api s w).world.errors = w.errors
      ∧ (handleSaveTask dayjs api s w).outcome = .ok () := by
  have hcond : (!truthy s.newTask.title || !s.newTask.priority.truthy
      || !truthy s.newTask.startTime) = true := by
    rcases hempty with h | h | h <;> simp [h, truthy, FieldValue.truthy]
  simp [handleSaveTask, hcond]

/-- C4 on the form as it is when the modal is first opened (empty title). -/
theorem handleSaveTask_rejects_empty_witness :
    (handleSaveTask dayjsLocal (constantApi []) (openModal initialState) World.empty).state
        = openModal initialState
      ∧ (handleSaveTask dayjsLocal (constantApi []) (openModal initialState)
          World.empty).world.calls = []
      ∧ (handleSaveTask dayjsLocal (constantApi []) (openModal initialState)
          World.empty).world.alerts = [] ++ ["Please fill in all required fields."]
      ∧ (handleSaveTask dayjsLocal (constantApi []) (openModal initialState)
          World.empty).world.errors = []
      ∧ (handleSaveTask dayjsLocal (constantApi []) (openModal initialState)
          World.empty).outcome = .ok () :=
  handleSaveTask_rejects_empty dayjsLocal (constantApi []) (openModal initialState) World.empty
    (Or.inl rfl)

/-! ## Selection (C7) -/

theorem selectedTasks_handleSelectTask (id : String) (s : State) :
    (handleSelectTask id s).selectedTasks
      = if id ∈ s.selectedTasks then s.selectedTasks.filter (fun taskId => taskId != id)
        else s.selectedTasks ++ [id] := by
  unfold handleSelectTask
  split <;> simp_all

theorem handleSelectTask_frame (id : String) (s : State) :
    (handleSelectTask id s).tasks = s.tasks
      ∧ (handleSelectTask id s).selectedTask = s.selectedTask
      ∧ (handleSelectTask id s).showModal = s.showModal
      ∧ (handleSelectTask id s).newTask = s.newTask
      ∧ (handleSelectTask id s).filters = s.filters := by
  unfold handleSelectTask
  split <;> simp

/-- C7: two calls of `handleSelectTask` with the same id leave the set of selected
ids, the checked state of every row and the rest of the state as they were, whether
or not the id was selected at first. -/
theorem handleSelectTask_twice (s : State) (id : String) :
    (∀ x, x ∈ (handleSelectTask id (handleSelectTask id s)).selectedTasks ↔ x ∈ s.selectedTasks)
      ∧ (∀ task, checked (handleSelectTask id (handleSelectTask id s)) task = checked s task)
      ∧ (handleSelectTask id (handleSelectTask id s)).tasks = s.tasks
      ∧ (handleSelectTask id (handleSelectTask id s)).selectedTask = s.selectedTask
      ∧ (handleSelectTask id (handleSelectTask id s)).showModal = s.showModal
      ∧ (handleSelectTask id (handleSelectTask id s)).newTask = s.newTask
      ∧ (handleSelectTask id (handleSelectTask id s)).filters = s.filters := by
  have hmem : ∀ x, x ∈ (handleSelectTask id (handleSelectTask id s)).selectedTasks
      ↔ x ∈ s.selectedTasks := by
    intro x
    rw [selectedTasks_handleSelectTask id (handleSelectTask id s),
      selectedTasks_handleSelectTask id s]
    by_cases h : id ∈ s.selectedTasks
    · by_cases hx : x = id <;> simp [h, hx]
    · by_cases hx : x = id <;> simp [h, hx]
  obtain ⟨f1, f2, f3, f4, f5⟩ := handleSelectTask_frame id (handleSelectTask id s)
  obtain ⟨g1, g2, g3, g4, g5⟩ := handleSelectTask_frame id s
  refine ⟨hmem, ?_, f1.trans g1, f2.trans g2, f3.trans g3, f4.trans g4, f5.trans g5⟩
  intro task
  have := hmem task._id
  rw [Bool.eq_iff_iff]
  simpa [checked] using this

/-! ## Failure of the list call (C8) -/

/-- C8, as the code has it: when the list call fails, `fetchTasks` makes that one
call and no other, empties the displayed tasks, writes the error to the console and
completes normally, so the failure does not reach its caller. -/
theorem fetchTasks_failure (dayjs : Option String → Option Int) (api : ApiClient) (s : State)
    (w : World) (e : String) (hfail : api.getTasks w.calls = .error e) :
    (fetchTasks dayjs api s w).state.tasks = []
      ∧ (fetchTasks dayjs api s w).world.calls = w.calls ++ [Call.getTasks]
      ∧ (fetchTasks dayjs api s w).world.errors = w.errors ++ ["Error fetching tasks: " ++ e]
      ∧ (fetchTasks dayjs api s w).world.alerts = w.alerts
      ∧ (fetchTasks dayjs api s w).outcome = .ok () := by
  simp [fetchTasks, hfail]

/-- C8 on a state that displays two tasks when the network is down. -/
theorem fetchTasks_failure_witness :
    (fetchTasks dayjsLocal (failingApi "Network Error")
        { initialState with tasks := [samplePending, sampleFinished] } World.empty).state.tasks = []
      ∧ (fetchTasks dayjsLocal (failingApi "Network Error")
        { initialState with tasks := [samplePending, sampleFinished] } World.empty).world.calls
          = [] ++ [Call.getTasks]
      ∧ (fetchTasks dayjsLocal (failingApi "Network Error")
        { initialState with tasks := [samplePending, sampleFinished] } World.empty).world.errors
          = [] ++ ["Error fetching tasks: " ++ "Network Error"]
      ∧ (fetchTasks dayjsLocal (failingApi "Network Error")
        { initialState with tasks := [samplePending, sampleFinished] } World.empty).world.alerts = []
      ∧ (fetchTasks dayjsLocal (failingApi "Network Error")
        { initialState with tasks := [samplePending, sampleFinished] } World.empty).outcome
          = .ok () :=
  fetchTasks_failure dayjsLocal (failingApi "Network Error")
    { initialState with tasks := [samplePending, sampleFinished] } World.empty "Network Error" rfl

/-- C8 as stated fails: the list call is rejected with "Network Error", yet the
promise of `fetchTasks` is fulfilled, not rejected with that error. -/
theorem fetchTasks_swallows_error :
    (failingApi "Network Error").getTasks World.empty.calls = .error "Network Error"
      ∧ (fetchTasks dayjsLocal (failingApi "Network Error") initialState World.empty).outcome
          = .ok ()
      ∧ (fetchTasks dayjsLocal (failingApi "Network Error") initialState World.empty).outcome
          ≠ .error "Network Error" := by
  refine ⟨rfl, rfl, ?_⟩
  simp [fetchTasks, failingApi]

/-! ## Sorting (C2, C3) -/

theorem applyFilters_sublist (filters : Filters) (tasks : List Task) :
    (applyFilters filters tasks).Sublist tasks := by
  unfold applyFilters
  split <;> split
  · exact (List.filter_sublist _).trans (List.filter_sublist _)
  · exact List.filter_sublist _
  · exact List.filter_sublist _
  · exact List.Sublist.refl _

theorem applySorting_eq (dayjs : Option String → Option Int) (filters : Filters)
    (tasks : List Task) (key order : String)
    (hkey : key = "startTime" ∨ key = "endTime") (horder : order = "asc" ∨ order = "desc")
    (hsort : filters.sort = key ++ "-" ++ order) :
    applySorting dayjs filters tasks = sort (compareTasks dayjs key (some order)) tasks := by
  have hparts : truthy (key ++ "-" ++ order) = true
      ∧ (split (key ++ "-" ++ order) '-').headD "" = key
      ∧ (split (key ++ "-" ++ order) '-').tail.head? = some order := by
    rcases hkey with rfl | rfl <;> rcases horder with rfl | rfl <;> decide
  simp only [applySorting, hsort, hparts.1, hparts.2.1, hparts.2.2, if_true]

theorem compareTasks_asc_le (dayjs : Option String → Option Int) (key : String) (a b : Task)
    (ha : (dayjs (a.prop key)).isSome) (hb : (dayjs (b.prop key)).isSome) :
    compareTasks dayjs key (some "asc") a b ≤ 0 ↔ stamp dayjs key a ≤ stamp dayjs key b := by
  obtain ⟨x, hx⟩ := Option.isSome_iff_exists.mp ha
  obtain ⟨y, hy⟩ := Option.isSome_iff_exists.mp hb
  simp only [compareTasks, stamp, hx, hy, isBefore, isAfter, Option.getD_some]
  rcases lt_trichotomy x y with h | h | h
  · simp [h, h.le]
  · simp [h]
  · simp [h, h.not_lt, h.not_le]

theorem compareTasks_desc_le (dayjs : Option String → Option Int) (key : String) (a b : Task)
    (ha : (dayjs (a.prop key)).isSome) (hb : (dayjs (b.prop key)).isSome) :
    compareTasks dayjs key (some "desc") a b ≤ 0 ↔ stamp dayjs key b ≤ stamp dayjs key a := by
  obtain ⟨x, hx⟩ := Option.isSome_iff_exists.mp ha
  obtain ⟨y, hy⟩ := Option.isSome_iff_exists.mp hb
  have hne : (some "desc" : Option String) ≠ some "asc" := by decide
  simp only [compareTasks, stamp, hx, hy, isBefore, isAfter, Option.getD_some, hne, if_false]
  rcases lt_trichotomy x y with h | h | h
  · simp [h, h.not_lt, h.not_le]
  · simp [h]
  · simp [h, h.le, h.not_lt]

theorem map_stamp_sort_asc (dayjs : Option String → Option Int) (key : String)
    (l : List Task) (hvalid : ∀ t ∈ l, (dayjs (t.prop key)).isSome) :
    (sort (compareTasks dayjs key (some "asc")) l).map (stamp dayjs key)
      = (l.map (stamp dayjs key)).insertionSort (· ≤ ·) :=
  List.map_insertionSort _ _ (stamp dayjs key) l
    fun a ha b hb => compareTasks_asc_le dayjs key a b (hvalid a ha) (hvalid b hb)

theorem map_stamp_sort_desc (dayjs : Option String → Option Int) (key : String)
    (l : List Task) (hvalid : ∀ t ∈ l, (dayjs (t.prop key)).isSome) :
    (sort (compareTasks dayjs key (some "desc")) l).map (stamp dayjs key)
      = (l.map (stamp dayjs key)).insertionSort (· ≥ ·) :=
  List.map_insertionSort _ _ (stamp dayjs key) l
    fun a ha b hb => compareTasks_desc_le dayjs key a b (hvalid a ha) (hvalid b hb)

theorem eq_of_map_eq_of_injOn {α β : Type} (f : α → β) :
    ∀ (l₁ l₂ : List α), (∀ a ∈ l₁, ∀ b ∈ l₂, f a = f b → a = b) →
      l₁.map f = l₂.map f → l₁ = l₂ := by
  intro l₁
  induction l₁ with
  | nil => intro l₂ _ h; cases l₂ <;> simp_all
  | cons a tl ih =>
    intro l₂ hinj h
    cases l₂ with
    | nil => simp at h
    | cons b tl₂ =>
      simp only [List.map_cons, List.cons.injEq] at h
      have hab : a = b := hinj a (List.mem_cons_self _ _) b (List.mem_cons_self _ _) h.1
      have htl := ih tl₂ (fun x hx y hy => hinj x (List.mem_cons_of_mem _ hx) y
        (List.mem_cons_of_mem _ hy)) h.2
      rw [hab, htl]

theorem sort_asc_reverse_eq_sort_desc (dayjs : Option String → Option Int) (key : String)
    (l : List Task) (hvalid : ∀ t ∈ l, (dayjs (t.prop key)).isSome)
    (hdistinct : (l.map (stamp dayjs key)).Nodup) :
    (sort (compareTasks dayjs key (some "asc")) l).reverse
      = sort (compareTasks dayjs key (some "desc")) l := by
  have hinj : ∀ a ∈ l, ∀ b ∈ l, stamp dayjs key a = stamp dayjs key b → a = b :=
    fun a ha b hb => List.inj_on_of_nodup_map hdistinct ha hb
  apply eq_of_map_eq_of_injOn (stamp dayjs key)
  · intro a ha b hb
    have ha' : a ∈ l := by
      simpa [sort, List.mem_insertionSort] using ha
    have hb' : b ∈ l := by
      simpa [sort, List.mem_insertionSort] using hb
    exact hinj a ha' b hb'
  · rw [List.map_reverse, map_stamp_sort_asc dayjs key l hvalid,
      map_stamp_sort_desc dayjs key l hvalid]
    apply List.eq_of_perm_of_sorted (r := (· ≥ ·))
    · exact (List.reverse_perm _).trans
        ((List.perm_insertionSort _ _).trans (List.perm_insertionSort _ _).symm)
    · have := List.sorted_insertionSort (· ≤ ·) (l.map (stamp dayjs key))
      exact List.pairwise_reverse.mpr this
    · exact List.sorted_insertionSort (· ≥ ·) (l.map (stamp dayjs key))

theorem stamp_nodup_of_distinct (dayjs : Option String → Option Int) (key : String)
    (l : List Task) (hvalid : ∀ t ∈ l, (dayjs (t.prop key)).isSome)
    (hdistinct : (l.map fun t => dayjs (t.prop key)).Nodup) :
    (l.map (stamp dayjs key)).Nodup := by
  have h : l.map (stamp dayjs key)
      = (l.map fun t => dayjs (t.prop key)).map fun o => o.getD 0 := by
    simp [stamp, Function.comp_def]
  rw [h]
  apply List.Nodup.map_on _ hdistinct
  intro x hx y hy hxy
  obtain ⟨a, ha, rfl⟩ := List.mem_map.mp hx
  obtain ⟨b, hb, rfl⟩ := List.mem_map.mp hy
  obtain ⟨u, hu⟩ := Option.isSome_iff_exists.mp (hvalid a ha)
  obtain ⟨v, hv⟩ := Option.isSome_iff_exists.mp (hvalid b hb)
  simp only [hu, hv, Option.getD_some] at hxy ⊢
  rw [hxy]

/-- C2: when every fetched task has a start time that `dayjs` parses and these
timestamps are pairwise distinct, the list `fetchTasks` displays for the sort
"startTime-asc", reversed, is the list it displays for "startTime-desc", the
fetched data and the priority and status filters being the same. -/
theorem fetchTasks_startTime_asc_reverse (dayjs : Option String → Option Int)
    (api : ApiClient) (s : State) (w : World) (response : Option (List Task))
    (priority status : String)
    (hfetch : api.getTasks w.calls = .ok response)
    (hvalid : ∀ t ∈ response.getD [], (dayjs (some t.startTime)).isSome)
    (hdistinct : ((response.getD []).map fun t => dayjs (some t.startTime)).Nodup) :
    (fetchTasks dayjs api
        { s with filters := { priority := priority, status := status, sort := "startTime-asc" } }
        w).state.tasks.reverse
      = (fetchTasks dayjs api
        { s with filters := { priority := priority, status := status, sort := "startTime-desc" } }
        w).state.tasks := by
  have hprop : ∀ t : Task, t.prop "startTime" = some t.startTime := fun t => by
    simp [Task.prop]
  have hsub := applyFilters_sublist
    { priority := priority, status := status, sort := "startTime-asc" } (response.getD [])
  have hvalid' : ∀ t ∈ applyFilters
      { priority := priority, status := status, sort := "startTime-asc" } (response.getD []),
      (dayjs (t.prop "startTime")).isSome := fun t ht => by
    rw [hprop]; exact hvalid t (hsub.subset ht)
  have hnodup : ((response.getD []).map (stamp dayjs "startTime")).Nodup := by
    apply stamp_nodup_of_distinct
    · intro t ht; rw [hprop]; exact hvalid t ht
    · simpa [hprop] using hdistinct
  have hnodup' := hnodup.sublist (hsub.map (stamp dayjs "startTime"))
  simp only [fetchTasks, hfetch, deriveTasks]
  rw [applySorting_eq dayjs _ _ "startTime" "asc" (Or.inl rfl) (Or.inl rfl) rfl,
    applySorting_eq dayjs _ _ "startTime" "desc" (Or.inl rfl) (Or.inr rfl) rfl]
  exact sort_asc_reverse_eq_sort_desc dayjs "startTime" _ hvalid' hnodup'

/-- C2 on three tasks of priority 2 fetched in the order of start 11:00, 09:00,
10:00. -/
theorem fetchTasks_startTime_asc_reverse_witness :
    (fetchTasks dayjsLocal (constantApi [endsEarly, endsLate, neverEnds])
        { initialState with filters := { priority := "2", status := "", sort := "startTime-asc" } }
        World.empty).state.tasks.reverse
      = (fetchTasks dayjsLocal (constantApi [endsEarly, endsLate, neverEnds])
        { initialState with filters := { priority := "2", status := "", sort := "startTime-desc" } }
        World.empty).state.tasks
    ∧ (fetchTasks dayjsLocal (constantApi [endsEarly, endsLate, neverEnds])
        { initialState with filters := { priority := "2", status := "", sort := "startTime-desc" } }
        World.empty).state.tasks = [endsEarly, neverEnds, endsLate] :=
  ⟨fetchTasks_startTime_asc_reverse dayjsLocal (constantApi [endsEarly, endsLate, neverEnds])
      initialState World.empty (some [endsEarly, endsLate, neverEnds]) "2" "" rfl
      (by decide) (by decide),
    by decide⟩

/-- Sorting when every fetched task has a timestamp for the key: the displayed
list is a permutation of the filtered list, ordered by the timestamp, and two
tasks of equal timestamp keep the order they have in the filtered list. -/
theorem fetchTasks_sorted_of_valid (dayjs : Option String → Option Int) (api : ApiClient)
    (s : State) (w : World) (response : Option (List Task)) (key order : String)
    (hfetch : api.getTasks w.calls = .ok response)
    (hkey : key = "startTime" ∨ key = "endTime") (horder : order = "asc" ∨ order = "desc")
    (hsort : s.filters.sort = key ++ "-" ++ order)
    (hvalid : ∀ t ∈ response.getD [], (dayjs (t.prop key)).isSome) :
    (fetchTasks dayjs api s w).state.tasks.Perm (applyFilters s.filters (response.getD []))
      ∧ (fetchTasks dayjs api s w).state.tasks.Pairwise (fun a b =>
          if order = "asc" then stamp dayjs key a ≤ stamp dayjs key b
          else stamp dayjs key b ≤ stamp dayjs key a)
      ∧ ∀ a b, stamp dayjs key a = stamp dayjs key b →
          [a, b].Sublist (applyFilters s.filters (response.getD [])) →
          [a, b].Sublist (fetchTasks dayjs api s w).state.tasks := by
  have hsub := applyFilters_sublist s.filters (response.getD [])
  have hvalid' : ∀ t ∈ applyFilters s.filters (response.getD []),
      (dayjs (t.prop key)).isSome := fun t ht => hvalid t (hsub.subset ht)
  simp only [fetchTasks, hfetch, deriveTasks]
  rw [applySorting_eq dayjs _ _ key order hkey horder hsort]
  refine ⟨List.perm_insertionSort _ _, ?_, ?_⟩
  · rcases horder with rfl | rfl
    · have h := List.sorted_insertionSort (· ≤ ·)
        ((applyFilters s.filters (response.getD [])).map (stamp dayjs key))
      rw [← map_stamp_sort_asc dayjs key _ hvalid'] at h
      simpa [List.Sorted, List.pairwise_map] using h
    · have h := List.sorted_insertionSort (· ≥ ·)
        ((applyFilters s.filters (response.getD [])).map (stamp dayjs key))
      rw [← map_stamp_sort_desc dayjs key _ hvalid'] at h
      have hne : ¬ ("desc" = "asc") := by decide
      simpa [List.Sorted, List.pairwise_map, hne] using h
  · intro a b hab hpair
    have ha : a ∈ applyFilters s.filters (response.getD []) := hpair.subset (by simp)
    have hb : b ∈ applyFilters s.filters (response.getD []) := hpair.subset (by simp)
    apply List.pair_sublist_insertionSort _ hpair
    rcases horder with rfl | rfl
    · exact (compareTasks_asc_le dayjs key a b (hvalid' a ha) (hvalid' b hb)).mpr hab.le
    · exact (compareTasks_desc_le dayjs key a b (hvalid' a ha) (hvalid' b hb)).mpr hab.ge

/-- C3 at a task without end time: fetched as ends 3 January, no end, ends
2 January, the list sorted by "endTime-asc" is displayed in that same order, the
later end before the earlier one; likewise for "endTime-desc" on the mirrored
list.  The comparator answers 0 whenever one of the two dates is invalid. -/
theorem fetchTasks_endTime_sort_null :
    (fetchTasks dayjsLocal (constantApi [endsLate, neverEnds, endsEarly])
        { initialState with filters := { priority := "", status := "", sort := "endTime-asc" } }
        World.empty).state.tasks = [endsLate, neverEnds, endsEarly]
      ∧ dayjsLocal endsLate.endTime = some 1704276000000
      ∧ dayjsLocal neverEnds.endTime = none
      ∧ dayjsLocal endsEarly.endTime = some 1704189600000
      ∧ (fetchTasks dayjsLocal (constantApi [endsEarly, neverEnds, endsLate])
        { initialState with filters := { priority := "", status := "", sort := "endTime-desc" } }
        World.empty).state.tasks = [endsEarly, neverEnds, endsLate] := by
  refine ⟨by decide, by decide, by decide, by decide, by decide⟩

/-! ## End before start (C5) -/

/-- What the second guard of `handleSaveTask` decides on: with the required fields
filled and an end time set, the form is rejected exactly when the end time is
below the start time as a string. -/
theorem handleSaveTask_end_before_start (dayjs : Option String → Option Int)
    (api : ApiClient) (s : State) (w : World)
    (hrequired : truthy s.newTask.title = true ∧ s.newTask.priority.truthy = true
      ∧ truthy s.newTask.startTime = true)
    (hset : truthyOpt s.newTask.endTime = true) :
    (stringLt (s.newTask.endTime.getD "") s.newTask.startTime = true →
        (handleSaveTask dayjs api s w).state = s
        ∧ (handleSaveTask dayjs api s w).world.calls = w.calls
        ∧ (handleSaveTask dayjs api s w).world.alerts
            = w.alerts ++ ["End time must be after start time."])
    ∧ (stringLt (s.newTask.endTime.getD "") s.newTask.startTime = false →
        (handleSaveTask dayjs api s w).world.alerts = w.alerts
        ∧ ∃ call rest, (handleSaveTask dayjs api s w).world.calls = w.calls ++ call :: rest
          ∧ (call = Call.createTask s.newTask
            ∨ ∃ id, call = Call.updateTask id s.newTask)) := by
  obtain ⟨h1, h2, h3⟩ := hrequired
  constructor
  · intro hlt
    simp [handleSaveTask, h1, h2, h3, hset, hlt]
  · intro hge
    simp only [handleSaveTask, h1, h2, h3, hset, hge]
    cases hsel : s.selectedTask with
    | none =>
      dsimp only
      cases hresp : api.createTask w.calls s.newTask with
      | ok u =>
        simp only [fetchTasks]
        cases api.getTasks (w.calls ++ [Call.createTask s.newTask]) <;> simp
      | error e => simp
    | some task =>
      dsimp only
      cases hresp : api.updateTask w.calls task._id s.newTask with
      | ok u =>
        simp only [fetchTasks]
        cases api.getTasks (w.calls ++ [Call.updateTask task._id s.newTask]) <;> simp
      | error e => simp

/-- C5 at a form that starts at 9999-12-31T23:59 and ends at 10000-01-01T00:00:
the end is one minute after the start, and `handleSaveTask` rejects the form with
"End time must be after start time." without calling the API client, since the
string "10000-01-01T00:00" is below "9999-12-31T23:59". -/
theorem handleSaveTask_compares_strings :
    localDateTime acrossYearTenThousand.startTime = some 4223371679
      ∧ localDateTime (acrossYearTenThousand.endTime.getD "") = some 4223371680
      ∧ (handleSaveTask dayjsLocal (constantApi [])
          { openModal initialState with newTask := acrossYearTenThousand }
          World.empty).world.alerts = ["End time must be after start time."]
      ∧ (handleSaveTask dayjsLocal (constantApi [])
          { openModal initialState with newTask := acrossYearTenThousand }
          World.empty).world.calls = [] := by
  refine ⟨by decide, by decide, by decide, by decide⟩

/-- The same guard after `handleEditTask`: the start time is the string of the
server, the end time typed into the input is a prefix of it, hence below it as a
string, and the form is rejected. -/
theorem handleSaveTask_mixed_formats :
    (handleInputChange "endTime" "2024-01-01T10:00"
        (handleEditTask serverTask initialState)).newTask
      = { title := "Deploy", priority := .num 4, status := "pending",
          startTime := "2024-01-01T10:00:00.000Z", endTime := some "2024-01-01T10:00" }
      ∧ (handleSaveTask dayjsLocal (constantApi [serverTask])
          (handleInputChange "endTime" "2024-01-01T10:00"
            (handleEditTask serverTask initialState))
          World.empty).world.alerts = ["End time must be after start time."]
      ∧ (handleSaveTask dayjsLocal (constantApi [serverTask])
          (handleInputChange "endTime" "2024-01-01T10:00"
            (handleEditTask serverTask initialState))
          World.empty).world.calls = [] := by
  refine ⟨by decide, by decide, by decide⟩

/-! ## Bulk deletion (C6, C9) -/

theorem deleteLoop_success (api : ApiClient) (ids : List String) :
    ∀ calls : List Call,
      (∀ done id rest, ids = done ++ id :: rest →
        api.deleteTask (calls ++ done.map Call.deleteTask) id = .ok ()) →
      deleteLoop api ids calls = (calls ++ ids.map Call.deleteTask, .ok ()) := by
  induction ids with
  | nil => intro calls _; simp [deleteLoop]
  | cons a tl ih =>
    intro calls h
    have ha : api.deleteTask calls a = .ok () := by
      simpa using h [] a tl rfl
    have htl : ∀ done id rest, tl = done ++ id :: rest →
        api.deleteTask ((calls ++ [Call.deleteTask a]) ++ done.map Call.deleteTask) id
          = .ok () := by
      intro done id rest hsplit
      have := h (a :: done) id rest (by rw [hsplit]; rfl)
      simpa using this
    simp [deleteLoop, ha, ih _ htl]

theorem deleteLoop_failure (api : ApiClient) (pre : List String) (b : String)
    (post : List String) (e : String) :
    ∀ calls : List Call,
      (∀ done id rest, pre = done ++ id :: rest →
        api.deleteTask (calls ++ done.map Call.deleteTask) id = .ok ()) →
      api.deleteTask (calls ++ pre.map Call.deleteTask) b = .error e →
      deleteLoop api (pre ++ b :: post) calls
        = (calls ++ pre.map Call.deleteTask ++ [Call.deleteTask b], .error e) := by
  induction pre with
  | nil => intro calls _ hb; simp at hb; simp [deleteLoop, hb]
  | cons a tl ih =>
    intro calls h hb
    have ha : api.deleteTask calls a = .ok () := by
      simpa using h [] a tl rfl
    have htl : ∀ done id rest, tl = done ++ id :: rest →
        api.deleteTask ((calls ++ [Call.deleteTask a]) ++ done.map Call.deleteTask) id
          = .ok () := by
      intro done id rest hsplit
      have := h (a :: done) id rest (by rw [hsplit]; rfl)
      simpa using this
    have hb2 : api.deleteTask ((calls ++ [Call.deleteTask a]) ++ tl.map Call.deleteTask) b
        = .error e := by
      simpa using hb
    simp [deleteLoop, ha, ih _ htl hb2]

/-- C6, as the code has it: when the deletes of the ids before b succeed and
that of b fails with e, `handleDeleteSelected` has called `deleteTask` for those ids
and for b, in order, and nothing after; its promise is rejected with e; the
selection is not cleared, the tasks are not fetched again and the state is as
before. -/
theorem handleDeleteSelected_failure (dayjs : Option String → Option Int) (api : ApiClient)
    (s : State) (w : World) (pre : List String) (b : String) (post : List String) (e : String)
    (hsel : s.selectedTasks = pre ++ b :: post)
    (hpre : ∀ done id rest, pre = done ++ id :: rest →
      api.deleteTask (w.calls ++ done.map Call.deleteTask) id = .ok ())
    (hfail : api.deleteTask (w.calls ++ pre.map Call.deleteTask) b = .error e) :
    (handleDeleteSelected dayjs api s w).world.calls
        = w.calls ++ pre.map Call.deleteTask ++ [Call.deleteTask b]
      ∧ (handleDeleteSelected dayjs api s w).outcome = .error e
      ∧ (handleDeleteSelected dayjs api s w).state = s
      ∧ (handleDeleteSelected dayjs api s w).world.alerts = w.alerts
      ∧ (handleDeleteSelected dayjs api s w).world.errors = w.errors := by
  simp [handleDeleteSelected, hsel, deleteLoop_failure api pre b post e w.calls hpre hfail]

/-- When every delete succeeds: one call per selected id, then the fetch. -/
theorem handleDeleteSelected_success (dayjs : Option String → Option Int) (api : ApiClient)
    (s : State) (w : World)
    (hok : ∀ done id rest, s.selectedTasks = done ++ id :: rest →
      api.deleteTask (w.calls ++ done.map Call.deleteTask) id = .ok ()) :
    (handleDeleteSelected dayjs api s w).world.calls
        = w.calls ++ s.selectedTasks.map Call.deleteTask ++ [Call.getTasks]
      ∧ (handleDeleteSelected dayjs api s w).state.selectedTasks = []
      ∧ (handleDeleteSelected dayjs api s w).state.tasks
          = (match api.getTasks (w.calls ++ s.selectedTasks.map Call.deleteTask) with
            | .ok response => deriveTasks dayjs s.filters response
            | .error _ => [])
      ∧ (handleDeleteSelected dayjs api s w).outcome = .ok () := by
  simp only [handleDeleteSelected, deleteLoop_success api s.selectedTasks w.calls hok, fetchTasks]
  cases hget : api.getTasks (w.calls ++ s.selectedTasks.map Call.deleteTask) <;> simp

theorem selectedTasks_fetchTasks (dayjs : Option String → Option Int) (api : ApiClient)
    (s : State) (w : World) :
    (fetchTasks dayjs api s w).state.selectedTasks = s.selectedTasks := by
  unfold fetchTasks
  split <;> rfl

theorem selectedTasks_handleSaveTask (dayjs : Option String → Option Int) (api : ApiClient)
    (s : State) (w : World) :
    (handleSaveTask dayjs api s w).state.selectedTasks = s.selectedTasks := by
  unfold handleSaveTask
  split
  · rfl
  · split
    · rfl
    · dsimp only
      split
      · rw [selectedTasks_fetchTasks]
      · rfl

theorem nodup_handleSelectTask (id : String) (s : State) (h : s.selectedTasks.Nodup) :
    (handleSelectTask id s).selectedTasks.Nodup := by
  rw [selectedTasks_handleSelectTask]
  split
  · exact h.filter _
  · rename_i hid
    exact List.Nodup.append h (List.nodup_singleton id) (by simpa using hid)

theorem nodup_handleDeleteSelected (dayjs : Option String → Option Int) (api : ApiClient)
    (s : State) (w : World) (h : s.selectedTasks.Nodup) :
    (handleDeleteSelected dayjs api s w).state.selectedTasks.Nodup := by
  unfold handleDeleteSelected
  split
  · rw [selectedTasks_fetchTasks]; exact List.nodup_nil
  · exact h

theorem nodup_step (dayjs : Option String → Option Int) (api : ApiClient) (a : Action)
    (s : State) (w : World) (h : s.selectedTasks.Nodup) :
    (step dayjs api a s w).1.selectedTasks.Nodup := by
  cases a with
  | filterChange key value =>
    simp only [step, selectedTasks_fetchTasks]
    unfold handleFilterChange
    exact h
  | inputChange name value => exact h
  | saveTask => simp only [step, selectedTasks_handleSaveTask]; exact h
  | editTask task => exact h
  | deleteSelected => exact nodup_handleDeleteSelected dayjs api s w h
  | selectTask id => exact nodup_handleSelectTask id s h
  | addTask => exact h
  | cancel => exact h

theorem reachable_nodup (dayjs : Option String → Option Int) (api : ApiClient) (s : State)
    (w : World) (h : Reachable dayjs api s w) : s.selectedTasks.Nodup := by
  induction h with
  | mount =>
    simp only [mounted, selectedTasks_fetchTasks]
    exact List.nodup_nil
  | step a _ _ ih => exact nodup_step dayjs api a _ _ ih

/-- C9: in a reachable state no id is selected twice, and when every delete
succeeds `handleDeleteSelected` calls `deleteTask` once per selected id, in the order
of the selection, then `getTasks`; the selection is empty afterwards and the
displayed tasks are derived from that fetch. -/
theorem handleDeleteSelected_all_succeed (dayjs : Option String → Option Int)
    (api : ApiClient) (s : State) (w : World) (hreach : Reachable dayjs api s w)
    (hok : ∀ done id rest, s.selectedTasks = done ++ id :: rest →
      api.deleteTask (w.calls ++ done.map Call.deleteTask) id = .ok ()) :
    s.selectedTasks.Nodup
      ∧ (handleDeleteSelected dayjs api s w).world.calls
          = w.calls ++ s.selectedTasks.map Call.deleteTask ++ [Call.getTasks]
      ∧ (∀ id, (s.selectedTasks.map Call.deleteTask).count (Call.deleteTask id)
          = if id ∈ s.selectedTasks then 1 else 0)
      ∧ (handleDeleteSelected dayjs api s w).state.selectedTasks = []
      ∧ (handleDeleteSelected dayjs api s w).state.tasks
          = (match api.getTasks (w.calls ++ s.selectedTasks.map Call.deleteTask) with
            | .ok response => deriveTasks dayjs s.filters response
            | .error _ => [])
      ∧ (handleDeleteSelected dayjs api s w).outcome = .ok () := by
  have hnodup := reachable_nodup dayjs api s w hreach
  obtain ⟨h1, h2, h3, h4⟩ := handleDeleteSelected_success dayjs api s w hok
  refine ⟨hnodup, h1, ?_, h2, h3, h4⟩
  intro id
  have hinj : Function.Injective Call.deleteTask := fun a b hab => by injection hab
  rw [List.count_map_of_injective _ _ hinj, List.count_eq_of_nodup hnodup]

/-- C9 after the rows t1 and t2 have been ticked on the mounted component. -/
theorem handleDeleteSelected_all_succeed_witness :
    twoSelected.1.selectedTasks = ["t1", "t2"]
      ∧ (handleDeleteSelected dayjsLocal (constantApi [samplePending, sampleFinished])
          twoSelected.1 twoSelected.2).world.calls
          = [Call.getTasks, Call.deleteTask "t1", Call.deleteTask "t2", Call.getTasks]
      ∧ (handleDeleteSelected dayjsLocal (constantApi [samplePending, sampleFinished])
          twoSelected.1 twoSelected.2).state.selectedTasks = [] :=
  have h := handleDeleteSelected_all_succeed dayjsLocal
    (constantApi [samplePending, sampleFinished]) twoSelected.1 twoSelected.2
    (Reachable.step (.selectTask "t2") (Reachable.step (.selectTask "t1") Reachable.mount rfl)
      rfl)
    (fun _ _ _ _ => rfl)
  ⟨by decide, h.2.1.trans (by decide), h.2.2.2.1⟩

/-- C6, as the code has it, on the selection a, b, c when deleting b fails. -/
theorem handleDeleteSelected_failure_witness :
    (handleDeleteSelected dayjsLocal
        (deletingApi [taskWithId "a", taskWithId "b", taskWithId "c"] (some "b"))
        threeSelected World.empty).world.calls
        = [] ++ ["a"].map Call.deleteTask ++ [Call.deleteTask "b"]
      ∧ (handleDeleteSelected dayjsLocal
        (deletingApi [taskWithId "a", taskWithId "b", taskWithId "c"] (some "b"))
        threeSelected World.empty).outcome = .error "delete failed"
      ∧ (handleDeleteSelected dayjsLocal
        (deletingApi [taskWithId "a", taskWithId "b", taskWithId "c"] (some "b"))
        threeSelected World.empty).state = threeSelected
      ∧ (handleDeleteSelected dayjsLocal
        (deletingApi [taskWithId "a", taskWithId "b", taskWithId "c"] (some "b"))
        threeSelected World.empty).world.alerts = []
      ∧ (handleDeleteSelected dayjsLocal
        (deletingApi [taskWithId "a", taskWithId "b", taskWithId "c"] (some "b"))
        threeSelected World.empty).world.errors = [] :=
  handleDeleteSelected_failure dayjsLocal
    (deletingApi [taskWithId "a", taskWithId "b", taskWithId "c"] (some "b"))
    threeSelected World.empty ["a"] "b" ["c"] "delete failed" rfl
    (by
      intro done id rest h
      have hid : id = "a" := by
        cases done with
        | nil => simp at h; exact h.1.symm
        | cons x xs => cases xs <;> simp at h
      subst hid
      rfl)
    rfl

/-- C6 as stated fails: with a, b, c selected and the delete of b failing, the
calls are the deletes of a and b and nothing else, so no fetch follows; the
display still shows a, b, c although the backend now answers b, c. -/
theorem handleDeleteSelected_no_refresh :
    (deletingApi [taskWithId "a", taskWithId "b", taskWithId "c"] (some "b")).deleteTask
        [Call.deleteTask "a"] "b" = .error "delete failed"
      ∧ (handleDeleteSelected dayjsLocal
        (deletingApi [taskWithId "a", taskWithId "b", taskWithId "c"] (some "b"))
        threeSelected World.empty).world.calls = [Call.deleteTask "a", Call.deleteTask "b"]
      ∧ Call.getTasks ∉ (handleDeleteSelected dayjsLocal
        (deletingApi [taskWithId "a", taskWithId "b", taskWithId "c"] (some "b"))
        threeSelected World.empty).world.calls
      ∧ (handleDeleteSelected dayjsLocal
        (deletingApi [taskWithId "a", taskWithId "b", taskWithId "c"] (some "b"))
        threeSelected World.empty).state.selectedTasks = ["a", "b", "c"]
      ∧ (handleDeleteSelected dayjsLocal
        (deletingApi [taskWithId "a", taskWithId "b", taskWithId "c"] (some "b"))
        threeSelected World.empty).state.tasks
          = [taskWithId "a", taskWithId "b", taskWithId "c"]
      ∧ (deletingApi [taskWithId "a", taskWithId "b", taskWithId "c"] (some "b")).getTasks
        [Call.deleteTask "a", Call.deleteTask "b"]
          = .ok (some [taskWithId "b", taskWithId "c"]) := by
  refine ⟨rfl, by decide, by decide, by decide, by decide, rfl⟩

/-! ## Create or update (C10) -/

theorem fetchTasks_frame (dayjs : Option String → Option Int) (api : ApiClient)
    (s : State) (w : World) :
    (fetchTasks dayjs api s w).state.selectedTask = s.selectedTask
      ∧ (fetchTasks dayjs api s w).state.showModal = s.showModal
      ∧ (fetchTasks dayjs api s w).state.newTask = s.newTask
      ∧ (fetchTasks dayjs api s w).world.calls = w.calls ++ [Call.getTasks] := by
  unfold fetchTasks
  split <;> simp

/-- A form that passes validation and is accepted by the API client: exactly one
changing call, `updateTask` on `selectedTask` when there is one and `createTask`
otherwise, then `getTasks`; the modal is closed and `selectedTask` is kept. -/
theorem handleSaveTask_dispatch (dayjs : Option String → Option Int) (api : ApiClient)
    (s : State) (w : World)
    (hrequired : truthy s.newTask.title = true ∧ s.newTask.priority.truthy = true
      ∧ truthy s.newTask.startTime = true)
    (hend : truthyOpt s.newTask.endTime = false
      ∨ stringLt (s.newTask.endTime.getD "") s.newTask.startTime = false)
    (hok : (match s.selectedTask with
      | some task => api.updateTask w.calls task._id s.newTask
      | none => api.createTask w.calls s.newTask) = .ok ()) :
    (handleSaveTask dayjs api s w).world.calls
        = w.calls ++ [(match s.selectedTask with
            | some task => Call.updateTask task._id s.newTask
            | none => Call.createTask s.newTask), Call.getTasks]
      ∧ (handleSaveTask dayjs api s w).state.showModal = false
      ∧ (handleSaveTask dayjs api s w).state.selectedTask = s.selectedTask := by
  obtain ⟨h1, h2, h3⟩ := hrequired
  have hguard : (truthyOpt s.newTask.endTime && truthy s.newTask.startTime
      && stringLt (s.newTask.endTime.getD "") s.newTask.startTime) = false := by
    rcases hend with h | h <;> simp [h]
  unfold handleSaveTask
  rw [if_neg (by simp [h1, h2, h3]), if_neg (by simp [hguard])]
  cases hsel : s.selectedTask with
  | none =>
    simp only [hsel] at hok
    simp only [hok]
    refine ⟨(fetchTasks_frame _ _ _ _).2.2.2.trans ?_, (fetchTasks_frame _ _ _ _).2.1.trans ?_,
      (fetchTasks_frame _ _ _ _).1.trans ?_⟩ <;> simp
  | some task =>
    simp only [hsel] at hok
    simp only [hok]
    refine ⟨(fetchTasks_frame _ _ _ _).2.2.2.trans ?_, (fetchTasks_frame _ _ _ _).2.1.trans ?_,
      (fetchTasks_frame _ _ _ _).1.trans ?_⟩ <;> simp

theorem selectedTask_handleSaveTask (dayjs : Option String → Option Int) (api : ApiClient)
    (s : State) (w : World) :
    (handleSaveTask dayjs api s w).state.selectedTask = s.selectedTask := by
  unfold handleSaveTask
  split
  · rfl
  · split
    · rfl
    · dsimp only
      split
      · rw [(fetchTasks_frame dayjs api _ _).1]
      · rfl

theorem selectedTask_handleDeleteSelected (dayjs : Option String → Option Int)
    (api : ApiClient) (s : State) (w : World) :
    (handleDeleteSelected dayjs api s w).state.selectedTask = s.selectedTask := by
  unfold handleDeleteSelected
  split
  · rw [(fetchTasks_frame dayjs api _ _).1]
  · rfl

/-- No event other than an edit changes `selectedTask`: neither Save, nor Cancel,
nor Add Task resets it. -/
theorem selectedTask_step (dayjs : Option String → Option Int) (api : ApiClient)
    (a : Action) (s : State) (w : World) (hedit : ∀ task, a ≠ .editTask task) :
    (step dayjs api a s w).1.selectedTask = s.selectedTask := by
  cases a with
  | filterChange key value =>
    simp only [step, (fetchTasks_frame dayjs api _ _).1]
    rfl
  | inputChange name value => rfl
  | saveTask => exact selectedTask_handleSaveTask dayjs api s w
  | editTask task => exact absurd rfl (hedit task)
  | deleteSelected => exact selectedTask_handleDeleteSelected dayjs api s w
  | selectTask id => exact (handleSelectTask_frame id s).2.1
  | addTask => rfl
  | cancel => rfl

/-- A run of offered events from a reachable state ends in a reachable state. -/
theorem run_reachable (dayjs : Option String → Option Int) (api : ApiClient)
    (trace : List Action) :
    ∀ (s : State) (w : World), Reachable dayjs api s w →
      ∀ sw, runFrom dayjs api trace (s, w) = some sw → Reachable dayjs api sw.1 sw.2 := by
  induction trace with
  | nil =>
    intro s w h sw hrun
    simp only [runFrom, Option.some.injEq] at hrun
    subst hrun
    exact h
  | cons a rest ih =>
    intro s w h sw hrun
    simp only [runFrom] at hrun
    split at hrun
    · rename_i hen
      exact ih _ _ (Reachable.step a h hen) sw hrun
    · simp at hrun

/-- C10 at the events edit t1, Cancel, Add Task, type a title, Save on the
mounted component: the modal opened by Add Task still has t1 as `selectedTask`,
and Save calls `updateTask` on t1 with the typed form instead of `createTask`. -/
theorem addTask_after_edit_updates :
    (run dayjsLocal (constantApi [samplePending])
        [.editTask samplePending, .cancel, .addTask,
          .inputChange "title" "Brand new task", .saveTask]).map (fun sw => sw.2.calls)
      = some [Call.getTasks,
          Call.updateTask "t1"
            { title := "Brand new task", priority := .num 1, status := "Pending",
              startTime := "2024-01-01T10:00", endTime := none },
          Call.getTasks]
    ∧ (run dayjsLocal (constantApi [samplePending])
        [.editTask samplePending, .cancel, .addTask]).map
          (fun sw => (sw.1.showModal, sw.1.selectedTask))
      = some (true, some samplePending) := by
  refine ⟨by decide, by decide⟩

end TaskList
